import Mathlib

/-!
Shallow embedding of `main.go` of shohan-dev12/image-upload-cloudflare-r2
(the multi-image version: `authMiddleware`, `healthHandler`, `uploadHandler`,
`isAllowedImage`, `generateFileName`, `uploadToR2`, `detectContentType`,
`sendJSONMulti`, and the route table set up in `main`).

Modelling decisions:
* A multipart file part is a record carrying its filename, its content bytes
  (as a `String`), the fresh random identifier that `uuid.New().String()`
  returns when (and if) it is called for this file, and two environment
  booleans: whether `fileHeader.Open()` succeeds and whether the storage
  backend's `PutObject` succeeds for it.
* The storage backend is observed through the list of `PutObject` calls a
  handler run emits (bucket, key, body, content type), in order.
* `r.Header.Get("X-API-Key")` returns the empty string when the header is
  absent; the header is therefore an `Option String` and `headerGet` models
  `Header.Get`.
* Go's `filepath.Ext` scans the path backwards and returns the suffix from
  the final dot, stopping at a path separator (`/` on linux); `filepathExt`
  reproduces that scan.
-/

namespace ImageUpload

/-- Auxiliary scan for `filepathExt`: the input is the reversed character
list of the path, `acc` the characters already passed (in original order).
Mirrors the loop of Go's `filepath.Ext`: walking from the end, stop at a
path separator; at the first `.` return the suffix from it. -/
def extFromRev : List Char → List Char → Option (List Char)
  | [], _ => none
  | c :: rest, acc =>
    if c = '/' then none
    else if c = '.' then some (c :: acc)
    else extFromRev rest (c :: acc)

/-- Go `filepath.Ext`: the suffix beginning at the final dot in the final
slash-separated element of `path`; empty if there is no dot. -/
def filepathExt (path : String) : String :=
  match extFromRev path.data.reverse [] with
  | none => ""
  | some cs => String.mk cs

/-- One file part submitted under the multipart field `images`.
`uuid` is the value `uuid.New().String()` yields for this file (exactly one
such call happens per file that reaches `generateFileName`); `openOk` and
`uploadOk` are the environment outcomes of `fileHeader.Open()` and of the
backend `PutObject` for this file. -/
structure FilePart where
  filename : String
  content : String
  uuid : String
  openOk : Bool
  uploadOk : Bool
deriving Repr, DecidableEq

/-- Go `strings.ToLower`, character-wise. `Char.toLower` lowers the ASCII
range; Go additionally lowers non-ASCII letters, but no non-ASCII character
lower-cases to `.`, `j`, `p`, `e`, `g`, `n`, `w` or `b` (the Kelvin sign is
the only character whose Go lower case is ASCII, and it maps to `k`), so
the two agree on every comparison made below. -/
def toLowerAscii (s : String) : String := String.mk (s.data.map Char.toLower)

/-- Go `isAllowedImage`: lower-cased extension of the filename must be a key
of the `allowed` map (`.jpg`, `.jpeg`, `.png`, `.webp`); map lookup defaults
to `false`. -/
def isAllowedImage (header : FilePart) : Bool :=
  let ext := toLowerAscii (filepathExt header.filename)
  ext == ".jpg" || ext == ".jpeg" || ext == ".png" || ext == ".webp"

/-- Go `generateFileName`: `"uploads/" + uuid.New().String() + filepath.Ext(original)`;
the fresh uuid string is passed explicitly. -/
def generateFileName (freshUUID : String) (original : String) : String :=
  "uploads/" ++ freshUUID ++ filepathExt original

/-- Go `detectContentType`: switch on the lower-cased extension of the
storage key. -/
def detectContentType (filename : String) : String :=
  let e := toLowerAscii (filepathExt filename)
  if e == ".jpg" || e == ".jpeg" then "image/jpeg"
  else if e == ".png" then "image/png"
  else if e == ".webp" then "image/webp"
  else "application/octet-stream"

/-- The server configuration globals `bucketName` and `publicURL` set by
`initR2`. -/
structure Config where
  bucketName : String
  publicURL : String
deriving Repr, DecidableEq

/-- One `s3Client.PutObject` call: the `PutObjectInput` fields the handler
fills in. -/
structure PutObjectCall where
  bucket : String
  key : String
  body : String
  contentType : String
deriving Repr, DecidableEq

/-- Go `uploadToR2`: always issues one `PutObject` call with the given key,
the streamed file content and `detectContentType(filename)`; on backend
error returns no URL, otherwise `publicURL + "/" + filename`.
`putObjectOk` is the environment outcome of the `PutObject` call. -/
def uploadToR2 (cfg : Config) (putObjectOk : Bool) (fileContent : String)
    (filename : String) : Option String × PutObjectCall :=
  (if putObjectOk then some (cfg.publicURL ++ "/" ++ filename) else none,
   ⟨cfg.bucketName, filename, fileContent, detectContentType filename⟩)

/-- Outcome of one iteration of the per-file loop in `uploadHandler`:
an entry for `urls` or an entry for `failed`. -/
inductive Outcome where
  | ok (url : String)
  | failedEntry (entry : String)
deriving Repr, DecidableEq

/-- One iteration of the `for _, fileHeader := range files` loop body of
`uploadHandler`: extension check, `Open()`, `generateFileName`,
`uploadToR2`; returns the outcome and the backend calls made (none or one). -/
def processFile (cfg : Config) (fh : FilePart) : Outcome × List PutObjectCall :=
  if !isAllowedImage fh then (.failedEntry (fh.filename ++ ": Invalid type"), [])
  else if !fh.openOk then (.failedEntry (fh.filename ++ ": Failed to open"), [])
  else
    let filename := generateFileName fh.uuid fh.filename
    let r := uploadToR2 cfg fh.uploadOk fh.content filename
    match r.1 with
    | some url => (.ok url, [r.2])
    | none => (.failedEntry (fh.filename ++ ": Upload failed"), [r.2])

/-- The whole per-file loop of `uploadHandler`: accumulates the `urls` and
`failed` slices in iteration order, and the backend calls in order. -/
def uploadLoop (cfg : Config) : List FilePart →
    List String × List String × List PutObjectCall
  | [] => ([], [], [])
  | fh :: rest =>
    let r := processFile cfg fh
    let acc := uploadLoop cfg rest
    match r.1 with
    | .ok u => (u :: acc.1, acc.2.1, r.2 ++ acc.2.2)
    | .failedEntry f => (acc.1, f :: acc.2.1, r.2 ++ acc.2.2)

/-- The decoded multipart request body: whether the raw body is a
well-formed multipart form, the file parts under the field `images`, and the
combined decoded size of the form in bytes. -/
structure MultipartBody where
  wellFormed : Bool
  files : List FilePart
  totalSize : Nat
deriving Repr, DecidableEq

/-- An HTTP request as the handlers observe it. -/
structure Request where
  method : String
  path : String
  xApiKey : Option String
  body : MultipartBody
deriving Repr, DecidableEq

/-- Go `r.ParseMultipartForm(maxMemory)`: parsing fails exactly when the raw
body is not a well-formed multipart form. Per the `net/http` and
`mime/multipart` contract, `maxMemory` only decides how much of the file
parts is buffered in memory — file parts beyond it are spilled to temporary
files on disk, and no bound is placed on the combined decoded size (the
server installs no `MaxBytesReader`). Buffering placement is unobservable
here, so `maxMemory` does not influence the result. -/
def parseMultipartForm (maxMemory : Nat) (body : MultipartBody) :
    Option (List FilePart) :=
  if body.wellFormed then some body.files else none

/-- The JSON body a handler writes. -/
inductive ResponseBody where
  | api (status : Nat) (urls : List String) (message : String) (failed : List String)
  | health (success : Bool) (message : String)
  | authError (status : Nat) (message : String)
deriving Repr, DecidableEq

/-- An HTTP response: the status line written (Go writes 200 implicitly when
a handler never calls `WriteHeader`) and the JSON body. -/
structure HttpResponse where
  status : Nat
  body : ResponseBody
deriving Repr, DecidableEq

/-- Go `sendJSONMulti`: writes `status` and the `ApiResponse` JSON object. -/
def sendJSONMulti (status : Nat) (urls : List String) (failed : List String)
    (message : String) : HttpResponse :=
  ⟨status, .api status urls message failed⟩

/-- Go `uploadHandler`, returning the response together with the backend
calls it provoked. -/
def uploadHandler (cfg : Config) (r : Request) :
    HttpResponse × List PutObjectCall :=
  if r.method ≠ "POST" then (sendJSONMulti 405 [] [] "Method not allowed", [])
  else
    match parseMultipartForm (50 * 2 ^ 20) r.body with
    | none => (sendJSONMulti 400 [] [] "Invalid multipart form", [])
    | some files =>
      if files.length = 0 then
        (sendJSONMulti 400 [] [] "At least 1 image required", [])
      else if files.length > 5 then
        (sendJSONMulti 400 [] [] "Maximum 5 images allowed", [])
      else
        let acc := uploadLoop cfg files
        if acc.1.length = 0 then
          (sendJSONMulti 400 [] acc.2.1 "All uploads failed", acc.2.2)
        else if acc.2.1.length > 0 then
          (sendJSONMulti 207 acc.1 acc.2.1
            (toString acc.1.length ++ " of " ++ toString files.length
              ++ " images uploaded"), acc.2.2)
        else
          (sendJSONMulti 200 acc.1 []
            (toString acc.1.length ++ " image(s) uploaded successfully"),
           acc.2.2)

/-- Go `healthHandler`: writes the constant `HealthResponse` JSON; never
calls `WriteHeader`, so the status is the implicit 200; touches no global
and issues no backend call. -/
def healthHandler (_r : Request) : HttpResponse × List PutObjectCall :=
  (⟨200, .health true "successfully connect"⟩, [])

/-- Go `r.Header.Get("X-API-Key")`: the empty string when the header is
absent. -/
def headerGet (h : Option String) : String := h.getD ""

/-- Go `authMiddleware`: exact string comparison of the `X-API-Key` header
value against the configured secret; on mismatch writes the 401 JSON object
and returns without invoking `next`. The final boolean records whether
`next` was invoked. -/
def authMiddleware (apiKey : String)
    (next : Request → HttpResponse × List PutObjectCall) (r : Request) :
    HttpResponse × List PutObjectCall × Bool :=
  if headerGet r.xApiKey ≠ apiKey then
    (⟨401, .authError 401 "Unauthorized: Invalid or missing API key"⟩, [], false)
  else
    let res := next r
    (res.1, res.2, true)

/-- The route table of `main`: `"/upload"` is an exact-match pattern, every
other path falls to the `"/"` subtree handler; both handlers are wrapped in
`authMiddleware`. -/
def serve (cfg : Config) (apiKey : String) (r : Request) :
    HttpResponse × List PutObjectCall × Bool :=
  if r.path = "/upload" then authMiddleware apiKey (uploadHandler cfg) r
  else authMiddleware apiKey healthHandler r

/-! ### Derived per-file notions used by the theorems -/

/-- A file for which the loop records a URL: allowed extension, open
succeeds, backend `PutObject` succeeds. -/
def succeeds (fh : FilePart) : Bool :=
  isAllowedImage fh && fh.openOk && fh.uploadOk

/-- A file the loop sends to the storage backend: allowed extension and
`Open()` succeeds (`PutObject` is then issued whether or not it errors). -/
def attempted (fh : FilePart) : Bool :=
  isAllowedImage fh && fh.openOk

/-- The URL the loop records for a succeeding file. -/
def urlOf (cfg : Config) (fh : FilePart) : String :=
  cfg.publicURL ++ "/" ++ generateFileName fh.uuid fh.filename

/-- The `failed` entry the loop records for a non-succeeding file. -/
def failEntryOf (fh : FilePart) : String :=
  if !isAllowedImage fh then fh.filename ++ ": Invalid type"
  else if !fh.openOk then fh.filename ++ ": Failed to open"
  else fh.filename ++ ": Upload failed"

/-- The `PutObject` call the loop issues for an attempted file. -/
def callOf (cfg : Config) (fh : FilePart) : PutObjectCall :=
  ⟨cfg.bucketName, generateFileName fh.uuid fh.filename, fh.content,
    detectContentType (generateFileName fh.uuid fh.filename)⟩

lemma processFile_eq (cfg : Config) (fh : FilePart) :
    processFile cfg fh =
      (if succeeds fh then .ok (urlOf cfg fh) else .failedEntry (failEntryOf fh),
       if attempted fh then [callOf cfg fh] else []) := by
  cases hA : isAllowedImage fh <;> cases hO : fh.openOk <;>
    cases hU : fh.uploadOk <;>
      simp [processFile, uploadToR2, succeeds, attempted, urlOf, failEntryOf,
        callOf, hA, hO, hU]

/-- The loop produces: the URLs of the succeeding files in order, the
failure entries of the non-succeeding files in order, and the backend calls
of the attempted files in order. -/
lemma uploadLoop_eq (cfg : Config) (files : List FilePart) :
    uploadLoop cfg files =
      ((files.filter succeeds).map (urlOf cfg),
       (files.filter (fun f => !succeeds f)).map failEntryOf,
       (files.filter attempted).map (callOf cfg)) := by
  induction files with
  | nil => rfl
  | cons fh rest ih =>
    cases hs : succeeds fh <;> cases ha : attempted fh
    · simp [uploadLoop, processFile_eq, hs, ha, ih, List.filter_cons]
    · simp [uploadLoop, processFile_eq, hs, ha, ih, List.filter_cons]
    · exfalso
      simp [succeeds, attempted] at hs ha
      simp_all
    · simp [uploadLoop, processFile_eq, hs, ha, ih, List.filter_cons]

lemma length_filter_add_length_filter_not (p : FilePart → Bool)
    (l : List FilePart) :
    (l.filter p).length + (l.filter (fun f => !p f)).length = l.length := by
  induction l with
  | nil => rfl
  | cons fh rest ih =>
    cases hp : p fh <;> simp [List.filter_cons, hp] <;> omega

/-- Projection: the `urls` list of an `ApiResponse` body. -/
def respUrls : HttpResponse → List String
  | ⟨_, .api _ urls _ _⟩ => urls
  | _ => []

/-- Projection: the `failed` list of an `ApiResponse` body. -/
def respFailed : HttpResponse → List String
  | ⟨_, .api _ _ _ failed⟩ => failed
  | _ => []

/-- Projection: the `message` of an `ApiResponse` body. -/
def respMessage : HttpResponse → String
  | ⟨_, .api _ _ message _⟩ => message
  | _ => ""

@[simp] lemma respUrls_sendJSONMulti (s : Nat) (urls failed : List String)
    (m : String) : respUrls (sendJSONMulti s urls failed m) = urls := rfl

@[simp] lemma respFailed_sendJSONMulti (s : Nat) (urls failed : List String)
    (m : String) : respFailed (sendJSONMulti s urls failed m) = failed := rfl

@[simp] lemma respMessage_sendJSONMulti (s : Nat) (urls failed : List String)
    (m : String) : respMessage (sendJSONMulti s urls failed m) = m := rfl

@[simp] lemma status_sendJSONMulti (s : Nat) (urls failed : List String)
    (m : String) : (sendJSONMulti s urls failed m).status = s := rfl

/-- On an accepted request (POST, well-formed form, 1–5 files) the handler
is the three-way aggregation of the loop results. -/
lemma uploadHandler_accepted (cfg : Config) (r : Request)
    (hm : r.method = "POST") (hw : r.body.wellFormed = true)
    (h1 : 1 ≤ r.body.files.length) (h5 : r.body.files.length ≤ 5) :
    uploadHandler cfg r =
      (if ((r.body.files.filter succeeds).map (urlOf cfg)).length = 0 then
        sendJSONMulti 400 []
          ((r.body.files.filter (fun f => !succeeds f)).map failEntryOf)
          "All uploads failed"
      else if 0 < ((r.body.files.filter (fun f => !succeeds f)).map failEntryOf).length then
        sendJSONMulti 207 ((r.body.files.filter succeeds).map (urlOf cfg))
          ((r.body.files.filter (fun f => !succeeds f)).map failEntryOf)
          (toString ((r.body.files.filter succeeds).map (urlOf cfg)).length
            ++ " of " ++ toString r.body.files.length ++ " images uploaded")
      else
        sendJSONMulti 200 ((r.body.files.filter succeeds).map (urlOf cfg)) []
          (toString ((r.body.files.filter succeeds).map (urlOf cfg)).length
            ++ " image(s) uploaded successfully"),
       (r.body.files.filter attempted).map (callOf cfg)) := by
  have hp : parseMultipartForm (50 * 2 ^ 20) r.body = some r.body.files := by
    simp [parseMultipartForm, hw]
  have h0 : ¬ r.body.files.length = 0 := by omega
  have h5' : ¬ r.body.files.length > 5 := by omega
  simp only [uploadHandler, hm, hp, h0, h5', uploadLoop_eq, ne_eq,
    not_true_eq_false, if_false, ite_false, if_neg]
  simp [h0, h5']
  split_ifs <;> rfl

/-- C2: any request, to any route, whose `X-API-Key` header is not exactly
the configured secret (in particular an absent header, the secret being
non-empty as startup enforces) is answered with 401 and the JSON body
`status 401, message "Unauthorized: Invalid or missing API key"`, without
invoking the wrapped handler and without any backend call — whatever the
method, path and body are. -/
theorem c2_unauthorized_always_401 (cfg : Config) (apiKey : String)
    (r : Request) (hk : apiKey ≠ "") (hd : r.xApiKey ≠ some apiKey) :
    serve cfg apiKey r =
      (⟨401, .authError 401 "Unauthorized: Invalid or missing API key"⟩,
       [], false) := by
  have hne : headerGet r.xApiKey ≠ apiKey := by
    cases h : r.xApiKey with
    | none =>
      simp only [headerGet, Option.getD_none]
      exact fun h' => hk h'.symm
    | some s =>
      simp only [headerGet, Option.getD_some]
      intro h'
      exact hd (by rw [h, h'])
  unfold serve
  split <;> simp [authMiddleware, hne]

/-- C2 witness: a GET to an arbitrary path with the header absent. -/
theorem c2_witness :
    serve ⟨"b", "p"⟩ "secret" ⟨"GET", "/anything", none, ⟨true, [], 0⟩⟩ =
      (⟨401, .authError 401 "Unauthorized: Invalid or missing API key"⟩,
       [], false) :=
  c2_unauthorized_always_401 ⟨"b", "p"⟩ "secret"
    ⟨"GET", "/anything", none, ⟨true, [], 0⟩⟩ (by decide) (by decide)

/-- C1: on an accepted request with N files (1 ≤ N ≤ 5) the handler
produces exactly one outcome per file — length(urls) + length(failed) = N —
and every file contributes its own outcome whatever happens to the others:
each succeeding file's URL is in `urls`, and each non-succeeding file's
entry is in `failed`. -/
theorem c1_outcome_accounting (cfg : Config) (r : Request)
    (hm : r.method = "POST") (hw : r.body.wellFormed = true)
    (h1 : 1 ≤ r.body.files.length) (h5 : r.body.files.length ≤ 5) :
    (respUrls (uploadHandler cfg r).1).length
        + (respFailed (uploadHandler cfg r).1).length = r.body.files.length ∧
    (∀ f ∈ r.body.files, succeeds f = true →
        urlOf cfg f ∈ respUrls (uploadHandler cfg r).1) ∧
    (∀ f ∈ r.body.files, succeeds f = false →
        failEntryOf f ∈ respFailed (uploadHandler cfg r).1) := by
  rw [uploadHandler_accepted cfg r hm hw h1 h5]
  have hsum := length_filter_add_length_filter_not succeeds r.body.files
  split_ifs with hz hf
  · rw [List.length_map] at hz
    refine ⟨?_, ?_, ?_⟩
    · simp only [respUrls_sendJSONMulti, respFailed_sendJSONMulti,
        List.length_map, List.length_nil]
      omega
    · intro f hmem hs
      have hmf : f ∈ r.body.files.filter succeeds :=
        List.mem_filter.mpr ⟨hmem, hs⟩
      rw [List.length_eq_zero.mp hz] at hmf
      exact absurd hmf (List.not_mem_nil _)
    · intro f hmem hs
      simp only [respFailed_sendJSONMulti]
      exact List.mem_map_of_mem failEntryOf
        (List.mem_filter.mpr ⟨hmem, by simp [hs]⟩)
  · refine ⟨?_, ?_, ?_⟩
    · simp only [respUrls_sendJSONMulti, respFailed_sendJSONMulti,
        List.length_map]
      omega
    · intro f hmem hs
      simp only [respUrls_sendJSONMulti]
      exact List.mem_map_of_mem (urlOf cfg) (List.mem_filter.mpr ⟨hmem, hs⟩)
    · intro f hmem hs
      simp only [respFailed_sendJSONMulti]
      exact List.mem_map_of_mem failEntryOf
        (List.mem_filter.mpr ⟨hmem, by simp [hs]⟩)
  · have hf0 : (r.body.files.filter (fun f => !succeeds f)).length = 0 := by
      rw [List.length_map] at hf
      omega
    refine ⟨?_, ?_, ?_⟩
    · simp only [respUrls_sendJSONMulti, respFailed_sendJSONMulti,
        List.length_map, List.length_nil]
      omega
    · intro f hmem hs
      simp only [respUrls_sendJSONMulti]
      exact List.mem_map_of_mem (urlOf cfg) (List.mem_filter.mpr ⟨hmem, hs⟩)
    · intro f hmem hs
      have hmf : f ∈ r.body.files.filter (fun f => !succeeds f) :=
        List.mem_filter.mpr ⟨hmem, by simp [hs]⟩
      rw [List.length_eq_zero.mp hf0] at hmf
      exact absurd hmf (List.not_mem_nil _)

/-- C1 witness: two files, the first succeeding, the second failing at the
backend. -/
theorem c1_witness :
    (respUrls (uploadHandler ⟨"b", "p"⟩
        ⟨"POST", "/upload", some "k",
          ⟨true, [⟨"a.jpg", "c1", "u1", true, true⟩,
                  ⟨"b.png", "c2", "u2", true, false⟩], 7⟩⟩).1).length
      + (respFailed (uploadHandler ⟨"b", "p"⟩
          ⟨"POST", "/upload", some "k",
            ⟨true, [⟨"a.jpg", "c1", "u1", true, true⟩,
                    ⟨"b.png", "c2", "u2", true, false⟩], 7⟩⟩).1).length = 2 :=
  (c1_outcome_accounting ⟨"b", "p"⟩
    ⟨"POST", "/upload", some "k",
      ⟨true, [⟨"a.jpg", "c1", "u1", true, true⟩,
              ⟨"b.png", "c2", "u2", true, false⟩], 7⟩⟩
    rfl rfl (by decide) (by decide)).1

/-- C3: on an accepted request with N files (1 ≤ N ≤ 5): all files
succeeding gives 200 with message `"N image(s) uploaded successfully"` and
an empty failure list; a mix gives 207 with message
`"k of N images uploaded"` (k the number of successes) and both lists
non-empty; all files failing gives 400 with message `"All uploads failed"`
and the failure list holding all N entries. -/
theorem c3_response_policy (cfg : Config) (r : Request)
    (hm : r.method = "POST") (hw : r.body.wellFormed = true)
    (h1 : 1 ≤ r.body.files.length) (h5 : r.body.files.length ≤ 5) :
    ((∀ f ∈ r.body.files, succeeds f = true) →
      (uploadHandler cfg r).1.status = 200 ∧
      respMessage (uploadHandler cfg r).1 =
        toString r.body.files.length ++ " image(s) uploaded successfully" ∧
      respFailed (uploadHandler cfg r).1 = []) ∧
    (((∃ f ∈ r.body.files, succeeds f = true) ∧
      (∃ f ∈ r.body.files, succeeds f = false)) →
      (uploadHandler cfg r).1.status = 207 ∧
      respMessage (uploadHandler cfg r).1 =
        toString (r.body.files.filter succeeds).length ++ " of "
          ++ toString r.body.files.length ++ " images uploaded" ∧
      respUrls (uploadHandler cfg r).1 ≠ [] ∧
      respFailed (uploadHandler cfg r).1 ≠ []) ∧
    ((∀ f ∈ r.body.files, succeeds f = false) →
      (uploadHandler cfg r).1.status = 400 ∧
      respMessage (uploadHandler cfg r).1 = "All uploads failed" ∧
      (respFailed (uploadHandler cfg r).1).length = r.body.files.length) := by
  rw [uploadHandler_accepted cfg r hm hw h1 h5]
  refine ⟨?_, ?_, ?_⟩
  · intro hall
    have hfs : r.body.files.filter succeeds = r.body.files :=
      List.filter_eq_self.mpr (by intro a ha; simp [hall a ha])
    have hff : r.body.files.filter (fun f => !succeeds f) = [] :=
      List.filter_eq_nil.mpr (by intro a ha; simp [hall a ha])
    simp only [hfs, hff, List.map_nil, List.length_nil, List.length_map]
    rw [if_neg (by omega), if_neg (by simp)]
    exact ⟨rfl, rfl, rfl⟩
  · rintro ⟨⟨f₁, hf₁, hs₁⟩, ⟨f₂, hf₂, hs₂⟩⟩
    have hp₁ : r.body.files.filter succeeds ≠ [] :=
      List.ne_nil_of_mem (List.mem_filter.mpr ⟨hf₁, hs₁⟩)
    have hp₂ : r.body.files.filter (fun f => !succeeds f) ≠ [] :=
      List.ne_nil_of_mem (List.mem_filter.mpr ⟨hf₂, by simp [hs₂]⟩)
    rw [if_neg (by simpa [List.length_map, List.length_eq_zero] using hp₁),
      if_pos (by simpa [List.length_map, List.length_pos] using hp₂)]
    refine ⟨rfl, by simp [List.length_map], ?_, ?_⟩
    · simpa [List.map_eq_nil] using hp₁
    · simpa [List.map_eq_nil] using hp₂
  · intro hall
    have hfs : r.body.files.filter succeeds = [] :=
      List.filter_eq_nil.mpr (by intro a ha; simp [hall a ha])
    have hff : r.body.files.filter (fun f => !succeeds f) = r.body.files :=
      List.filter_eq_self.mpr (by intro a ha; simp [hall a ha])
    rw [if_pos (by simp [hfs])]
    exact ⟨rfl, rfl, by simp [hff, List.length_map]⟩

/-- C3 witness: one request per case — a single succeeding file (200), one
succeeding and one invalid file (207), and a single invalid file (400). -/
theorem c3_witness :
    ((uploadHandler ⟨"b", "p"⟩ ⟨"POST", "/upload", some "k",
        ⟨true, [⟨"a.jpg", "c", "u", true, true⟩], 3⟩⟩).1.status = 200 ∧
      respMessage (uploadHandler ⟨"b", "p"⟩ ⟨"POST", "/upload", some "k",
        ⟨true, [⟨"a.jpg", "c", "u", true, true⟩], 3⟩⟩).1 =
        toString (⟨"POST", "/upload", some "k",
          ⟨true, [⟨"a.jpg", "c", "u", true, true⟩], 3⟩⟩ :
            Request).body.files.length ++ " image(s) uploaded successfully" ∧
      respFailed (uploadHandler ⟨"b", "p"⟩ ⟨"POST", "/upload", some "k",
        ⟨true, [⟨"a.jpg", "c", "u", true, true⟩], 3⟩⟩).1 = []) ∧
    ((uploadHandler ⟨"b", "p"⟩ ⟨"POST", "/upload", some "k",
        ⟨true, [⟨"a.jpg", "c", "u", true, true⟩,
                ⟨"b.gif", "c", "u2", true, true⟩], 3⟩⟩).1.status = 207) ∧
    ((uploadHandler ⟨"b", "p"⟩ ⟨"POST", "/upload", some "k",
        ⟨true, [⟨"b.gif", "c", "u2", true, true⟩], 3⟩⟩).1.status = 400) :=
  ⟨(c3_response_policy ⟨"b", "p"⟩ ⟨"POST", "/upload", some "k",
      ⟨true, [⟨"a.jpg", "c", "u", true, true⟩], 3⟩⟩
      rfl rfl (by decide) (by decide)).1 (by decide),
   ((c3_response_policy ⟨"b", "p"⟩ ⟨"POST", "/upload", some "k",
      ⟨true, [⟨"a.jpg", "c", "u", true, true⟩,
              ⟨"b.gif", "c", "u2", true, true⟩], 3⟩⟩
      rfl rfl (by decide) (by decide)).2.1 (by decide)).1,
   ((c3_response_policy ⟨"b", "p"⟩ ⟨"POST", "/upload", some "k",
      ⟨true, [⟨"b.gif", "c", "u2", true, true⟩], 3⟩⟩
      rfl rfl (by decide) (by decide)).2.2 (by decide)).1⟩

/-- C5: on a well-formed POST with zero files under `images` the response
is 400 `"At least 1 image required"`, and with more than five files it is
400 `"Maximum 5 images allowed"`; in both cases no backend call is made. -/
theorem c5_count_bounds (cfg : Config) (r : Request)
    (hm : r.method = "POST") (hw : r.body.wellFormed = true) :
    (r.body.files.length = 0 →
      uploadHandler cfg r =
        (sendJSONMulti 400 [] [] "At least 1 image required", [])) ∧
    (r.body.files.length > 5 →
      uploadHandler cfg r =
        (sendJSONMulti 400 [] [] "Maximum 5 images allowed", [])) := by
  have hp : parseMultipartForm (50 * 2 ^ 20) r.body = some r.body.files := by
    simp [parseMultipartForm, hw]
  constructor
  · intro h0
    simp only [uploadHandler, hm, hp, h0, ne_eq, not_true_eq_false, if_false,
      ite_false, ite_true, if_true]
  · intro h5
    have h0 : ¬ r.body.files.length = 0 := by omega
    simp only [uploadHandler, hm, hp, ne_eq, not_true_eq_false, if_false,
      ite_false]
    simp [h0, h5]

/-- C5 witness: the zero-file case at a concrete request. -/
theorem c5_witness :
    uploadHandler ⟨"b", "p"⟩ ⟨"POST", "/upload", some "k", ⟨true, [], 0⟩⟩ =
      (sendJSONMulti 400 [] [] "At least 1 image required", []) :=
  (c5_count_bounds ⟨"b", "p"⟩
    ⟨"POST", "/upload", some "k", ⟨true, [], 0⟩⟩ rfl rfl).1 rfl

/-- C4: the handler's only guard on the multipart body is well-formedness —
`ParseMultipartForm`'s argument bounds in-memory buffering, not the decoded
size, and no other size check exists. A well-formed form whose combined
decoded size is 60 MiB (above the claimed 50 MiB cap) is parsed, its file
is uploaded to storage, and the response is 200, not the claimed 400
`"Invalid multipart form"`. -/
theorem c4_oversized_form_processed :
    50 * 2 ^ 20 < 60 * 2 ^ 20 ∧
    uploadHandler ⟨"bucket", "https://pub.example.com"⟩
      ⟨"POST", "/upload", some "k",
        ⟨true, [⟨"a.jpg", "payload", "u1", true, true⟩], 60 * 2 ^ 20⟩⟩ =
      (sendJSONMulti 200 ["https://pub.example.com/uploads/u1.jpg"] []
        "1 image(s) uploaded successfully",
       [⟨"bucket", "uploads/u1.jpg", "payload", "image/jpeg"⟩]) :=
  ⟨by norm_num, by decide⟩

/-- C6 counterexample: the file `a.jpg` has an allowed extension, yet in a
request where its `Open()` fails the backend is never called (the call list
is empty) — refuting the claimed "attempted if and only if the extension is
allowed". -/
theorem c6_counterexample :
    isAllowedImage ⟨"a.jpg", "c", "u", false, true⟩ = true ∧
    uploadHandler ⟨"b", "p"⟩
      ⟨"POST", "/upload", some "k",
        ⟨true, [⟨"a.jpg", "c", "u", false, true⟩], 9⟩⟩ =
      (sendJSONMulti 400 [] ["a.jpg: Failed to open"] "All uploads failed",
       []) := by
  constructor
  · decide
  · decide

/-- C6 (amended): on an accepted request a file is sent to the storage
backend iff its extension (case-insensitively) is allowed AND its open
succeeds; a file with any other extension is never attempted and produces
exactly the failure entry `"<filename>: Invalid type"`. -/
theorem c6_backend_gating (cfg : Config) (r : Request)
    (hm : r.method = "POST") (hw : r.body.wellFormed = true)
    (h1 : 1 ≤ r.body.files.length) (h5 : r.body.files.length ≤ 5) :
    (uploadHandler cfg r).2 =
      (r.body.files.filter attempted).map (callOf cfg) ∧
    (∀ f : FilePart, attempted f = (isAllowedImage f && f.openOk)) ∧
    (∀ f ∈ r.body.files, isAllowedImage f = false →
      attempted f = false ∧
      failEntryOf f = f.filename ++ ": Invalid type" ∧
      failEntryOf f ∈ respFailed (uploadHandler cfg r).1) := by
  rw [uploadHandler_accepted cfg r hm hw h1 h5]
  refine ⟨by split_ifs <;> rfl, fun f => rfl, ?_⟩
  intro f hmem hbad
  have hns : succeeds f = false := by simp [succeeds, hbad]
  have hmf : failEntryOf f ∈
      (r.body.files.filter (fun f => !succeeds f)).map failEntryOf :=
    List.mem_map_of_mem failEntryOf
      (List.mem_filter.mpr ⟨hmem, by simp [hns]⟩)
  refine ⟨by simp [attempted, hbad], by simp [failEntryOf, hbad], ?_⟩
  split_ifs with hz hf
  · simpa using hmf
  · simpa using hmf
  · exfalso
    rw [List.length_map] at hf
    have : f ∈ r.body.files.filter (fun f => !succeeds f) :=
      List.mem_filter.mpr ⟨hmem, by simp [hns]⟩
    have := List.length_pos.mpr (List.ne_nil_of_mem this)
    omega

/-- C6 witness for the amended statement: one valid and one `.gif` file. -/
theorem c6_witness :
    (uploadHandler ⟨"b", "p"⟩
      ⟨"POST", "/upload", some "k",
        ⟨true, [⟨"a.jpg", "c", "u1", true, true⟩,
                ⟨"n.gif", "c", "u2", true, true⟩], 9⟩⟩).2 =
      ((⟨"POST", "/upload", some "k",
        ⟨true, [⟨"a.jpg", "c", "u1", true, true⟩,
                ⟨"n.gif", "c", "u2", true, true⟩], 9⟩⟩ :
          Request).body.files.filter attempted).map (callOf ⟨"b", "p"⟩) :=
  (c6_backend_gating ⟨"b", "p"⟩
    ⟨"POST", "/upload", some "k",
      ⟨true, [⟨"a.jpg", "c", "u1", true, true⟩,
              ⟨"n.gif", "c", "u2", true, true⟩], 9⟩⟩
    rfl rfl (by decide) (by decide)).1

/-- C7: every URL the handler returns is the public base URL, then
`"/uploads/"`, then the file's fresh random identifier, then the original
filename's extension taken verbatim. -/
theorem c7_url_shape (cfg : Config) (r : Request) :
    ∀ u ∈ respUrls (uploadHandler cfg r).1, ∃ f ∈ r.body.files,
      succeeds f = true ∧
      u = cfg.publicURL ++ "/uploads/" ++ f.uuid ++ filepathExt f.filename := by
  intro u hu
  by_cases hm : r.method = "POST"
  · by_cases hw : r.body.wellFormed = true
    · by_cases h0 : r.body.files.length = 0
      · have hp : parseMultipartForm (50 * 2 ^ 20) r.body = some r.body.files := by
          simp [parseMultipartForm, hw]
        simp only [uploadHandler, hm, hp, h0, ne_eq, not_true_eq_false,
          if_false, ite_false, ite_true, if_true] at hu
        simp [respUrls, sendJSONMulti] at hu
      · by_cases h5 : r.body.files.length ≤ 5
        · rw [uploadHandler_accepted cfg r hm hw (by omega) h5] at hu
          have hmain : u ∈ (r.body.files.filter succeeds).map (urlOf cfg) := by
            split_ifs at hu with hz hf
            · simp [respUrls, sendJSONMulti] at hu
            · simpa [respUrls, sendJSONMulti] using hu
            · simpa [respUrls, sendJSONMulti] using hu
          obtain ⟨f, hmf, hfu⟩ := List.mem_map.mp hmain
          obtain ⟨hmem, hs⟩ := List.mem_filter.mp hmf
          refine ⟨f, hmem, hs, ?_⟩
          have hlit : ("/" : String) ++ "uploads/" = "/uploads/" := by decide
          rw [← hfu]
          simp only [urlOf, generateFileName, ← String.append_assoc]
          rw [String.append_assoc cfg.publicURL "/" "uploads/", hlit]
        · have hp : parseMultipartForm (50 * 2 ^ 20) r.body = some r.body.files := by
            simp [parseMultipartForm, hw]
          have h5' : r.body.files.length > 5 := by omega
          simp only [uploadHandler, hm, hp, ne_eq, not_true_eq_false,
            if_false, ite_false] at hu
          simp [h0, h5', respUrls, sendJSONMulti] at hu
    · have hw' : r.body.wellFormed = false := by
        cases h : r.body.wellFormed
        · rfl
        · exact absurd h hw
      have hp : parseMultipartForm (50 * 2 ^ 20) r.body = none := by
        simp [parseMultipartForm, hw']
      simp only [uploadHandler, hm, hp, ne_eq, not_true_eq_false, if_false,
        ite_false] at hu
      simp [respUrls, sendJSONMulti] at hu
  · simp only [uploadHandler, hm, ne_eq, not_false_eq_true, if_true,
      ite_true] at hu
    simp [respUrls, sendJSONMulti] at hu

/-- C7 witness: the single returned URL of a concrete request decomposes as
claimed. -/
theorem c7_witness :
    ∃ f ∈ (⟨"POST", "/upload", some "k",
        ⟨true, [⟨"a.JPG", "c", "u1", true, true⟩], 4⟩⟩ :
          Request).body.files,
      succeeds f = true ∧
      "p/uploads/u1.JPG" =
        (⟨"b", "p"⟩ : Config).publicURL ++ "/uploads/" ++ f.uuid
          ++ filepathExt f.filename :=
  c7_url_shape ⟨"b", "p"⟩
    ⟨"POST", "/upload", some "k",
      ⟨true, [⟨"a.JPG", "c", "u1", true, true⟩], 4⟩⟩
    "p/uploads/u1.JPG" (by decide)

/-- C8: the content type of every backend call is a pure function of the
storage key, depending only on the key's lower-cased extension — `.jpg` and
`.jpeg` to `image/jpeg`, `.png` to `image/png`, `.webp` to `image/webp` —
and is unchanged under any change of the file's bytes. -/
theorem c8_content_type_pure (cfg : Config) (r : Request) :
    (∀ c ∈ (uploadHandler cfg r).2, c.contentType = detectContentType c.key) ∧
    (∀ k₁ k₂ : String,
      toLowerAscii (filepathExt k₁) = toLowerAscii (filepathExt k₂) →
      detectContentType k₁ = detectContentType k₂) ∧
    (∀ k : String, (toLowerAscii (filepathExt k) = ".jpg" ∨
        toLowerAscii (filepathExt k) = ".jpeg") →
      detectContentType k = "image/jpeg") ∧
    (∀ k : String, toLowerAscii (filepathExt k) = ".png" →
      detectContentType k = "image/png") ∧
    (∀ k : String, toLowerAscii (filepathExt k) = ".webp" →
      detectContentType k = "image/webp") ∧
    (∀ (f : FilePart) (s : String),
      ((processFile cfg { f with content := s }).2).map PutObjectCall.contentType
        = ((processFile cfg f).2).map PutObjectCall.contentType) := by
  refine ⟨?_, ?_, ?_, ?_, ?_, ?_⟩
  · intro c hc
    have hcalls : ∀ fs : List FilePart,
        c ∈ (fs.filter attempted).map (callOf cfg) →
        c.contentType = detectContentType c.key := by
      intro fs hmem
      obtain ⟨f, _, hfc⟩ := List.mem_map.mp hmem
      rw [← hfc]
      rfl
    by_cases hm : r.method = "POST"
    · cases hwf : r.body.wellFormed
      · have hp : parseMultipartForm (50 * 2 ^ 20) r.body = none := by
          simp [parseMultipartForm, hwf]
        simp only [uploadHandler, hm, hp, ne_eq, not_true_eq_false, if_false,
          ite_false] at hc
        simp at hc
      · by_cases h0 : r.body.files.length = 0
        · have hp : parseMultipartForm (50 * 2 ^ 20) r.body
              = some r.body.files := by
            simp [parseMultipartForm, hwf]
          simp only [uploadHandler, hm, hp, h0, ne_eq, not_true_eq_false,
            if_false, ite_false, ite_true, if_true] at hc
          simp at hc
        · by_cases h5 : r.body.files.length ≤ 5
          · rw [uploadHandler_accepted cfg r hm hwf (by omega) h5] at hc
            refine hcalls r.body.files ?_
            split_ifs at hc <;> simpa using hc
          · have hp : parseMultipartForm (50 * 2 ^ 20) r.body
                = some r.body.files := by
              simp [parseMultipartForm, hwf]
            have h5' : r.body.files.length > 5 := by omega
            simp only [uploadHandler, hm, hp, ne_eq, not_true_eq_false,
              if_false, ite_false] at hc
            simp [h0, h5'] at hc
    · simp only [uploadHandler, hm, ne_eq, not_false_eq_true, if_true,
        ite_true] at hc
      simp at hc
  · intro k₁ k₂ h
    simp only [detectContentType]
    rw [h]
  · intro k h
    rcases h with h | h <;> simp [detectContentType, h]
  · intro k h
    simp [detectContentType, h]
  · intro k h
    simp [detectContentType, h]
  · intro f s
    have hatt : attempted { f with content := s } = attempted f := by
      simp [attempted, isAllowedImage]
    simp only [processFile_eq, hatt]
    cases attempted f <;> simp [callOf, generateFileName]

/-- C8 witness: a key with upper-case `.PNG` extension. -/
theorem c8_witness : detectContentType "uploads/u1.PNG" = "image/png" :=
  (c8_content_type_pure ⟨"b", "p"⟩
    ⟨"GET", "/", none, ⟨true, [], 0⟩⟩).2.2.2.1 "uploads/u1.PNG" (by decide)

/-- C9: an authenticated GET to `/` is answered 200 with
`{success: true, message: "successfully connect"}`; no backend call is
made, and the result does not depend on the server configuration (the
handler reads and writes no server state). -/
theorem c9_health_endpoint (cfg cfg' : Config) (apiKey : String)
    (r : Request) (hp : r.path = "/") (hm : r.method = "GET")
    (hk : r.xApiKey = some apiKey) :
    serve cfg apiKey r =
      (⟨200, .health true "successfully connect"⟩, [], true) ∧
    serve cfg apiKey r = serve cfg' apiKey r := by
  have hne : ¬ headerGet r.xApiKey ≠ apiKey := by simp [headerGet, hk]
  have hpath : ¬ r.path = "/upload" := by simp [hp]
  constructor
  · simp [serve, hpath, authMiddleware, hne, healthHandler]
  · simp [serve, hpath, authMiddleware, hne, healthHandler]

/-- C9 witness: a concrete authenticated GET `/`. -/
theorem c9_witness :
    serve ⟨"b", "p"⟩ "secret" ⟨"GET", "/", some "secret", ⟨true, [], 0⟩⟩ =
      (⟨200, .health true "successfully connect"⟩, [], true) :=
  (c9_health_endpoint ⟨"b", "p"⟩ ⟨"b2", "p2"⟩ "secret"
    ⟨"GET", "/", some "secret", ⟨true, [], 0⟩⟩ rfl rfl rfl).1

/-- C10: on an accepted request the `urls` list is exactly the succeeding
files' URLs in submission order, and the `failed` list exactly the failing
files' entries in submission order. -/
theorem c10_order_preserved (cfg : Config) (r : Request)
    (hm : r.method = "POST") (hw : r.body.wellFormed = true)
    (h1 : 1 ≤ r.body.files.length) (h5 : r.body.files.length ≤ 5) :
    respUrls (uploadHandler cfg r).1 =
      (r.body.files.filter succeeds).map (urlOf cfg) ∧
    respFailed (uploadHandler cfg r).1 =
      (r.body.files.filter (fun f => !succeeds f)).map failEntryOf := by
  rw [uploadHandler_accepted cfg r hm hw h1 h5]
  split_ifs with hz hf
  · rw [List.length_map] at hz
    constructor
    · simp [List.length_eq_zero.mp hz]
    · rfl
  · exact ⟨rfl, rfl⟩
  · rw [List.length_map] at hf
    have hf0 : r.body.files.filter (fun f => !succeeds f) = [] :=
      List.length_eq_zero.mp (by omega)
    exact ⟨rfl, by simp [hf0]⟩

/-- C10 witness: three files with outcomes success, failure, success keep
their relative orders in the two lists. -/
theorem c10_witness :
    respUrls (uploadHandler ⟨"b", "p"⟩ ⟨"POST", "/upload", some "k",
      ⟨true, [⟨"a.jpg", "c", "u1", true, true⟩,
              ⟨"n.gif", "c", "u2", true, true⟩,
              ⟨"z.png", "c", "u3", true, true⟩], 9⟩⟩).1 =
      (((⟨"POST", "/upload", some "k",
        ⟨true, [⟨"a.jpg", "c", "u1", true, true⟩,
                ⟨"n.gif", "c", "u2", true, true⟩,
                ⟨"z.png", "c", "u3", true, true⟩], 9⟩⟩ :
          Request).body.files.filter succeeds).map (urlOf ⟨"b", "p"⟩)) :=
  (c10_order_preserved ⟨"b", "p"⟩ ⟨"POST", "/upload", some "k",
    ⟨true, [⟨"a.jpg", "c", "u1", true, true⟩,
            ⟨"n.gif", "c", "u2", true, true⟩,
            ⟨"z.png", "c", "u3", true, true⟩], 9⟩⟩
    rfl rfl (by decide) (by decide)).1

end ImageUpload
